import Mathlib

/-!
# Verification of `analysis_of_states.py`

Shallow embedding of the state-metrics report builder. The script joins four
tables (keys, population, median household income, Redfin sale prices),
derives ranks, blurbs and an affordability ratio, and writes one output table.

Modelling conventions:
* CSV cell values are `Option String` (`none` models a pandas `NaN`).
* Python `float` values are modelled by exact rationals `ℚ`; the model is
  exact where floating point may round, and division by zero yields `0` in
  the model where float division yields an infinity. No claim examined here
  depends on these differences.
* Fallible code paths (`float(...)` calls that can raise uncaught
  exceptions) are modelled with `Except Unit`.
* `.loc[1, col]` access on a table with fewer than two rows would raise in
  pandas; tables of interest always have a row at index 1, and the model
  returns a missing value in that corner case.
-/

set_option autoImplicit false

namespace States

/- Core rational arithmetic is `@[irreducible]` in this toolchain, which
blocks `decide`-style evaluation of concrete pipeline runs; restore the
default reducibility for it inside this file. -/
attribute [local semireducible] Rat.mul Rat.add Rat.sub Rat.inv

/-! ## Python string and number primitives -/

/-- `s.replace(c, '')` for a single character: removes every occurrence. -/
def removeAll (c : Char) (s : String) : String :=
  String.mk (s.toList.filter (fun d => d ≠ c))

/-- Python `str.strip()`: drop leading and trailing whitespace. -/
def pyStrip (s : String) : String :=
  String.mk (((s.toList.dropWhile Char.isWhitespace).reverse.dropWhile Char.isWhitespace).reverse)

/-- Python string `<` (used by pandas when ranking an object column):
lexicographic comparison of code points. -/
def charListLt : List Char → List Char → Bool
  | [], [] => false
  | [], _ :: _ => true
  | _ :: _, [] => false
  | a :: as, b :: bs => if a < b then true else if b < a then false else charListLt as bs

/-- Split a character list on a separator character (Python `str.split(c)`). -/
def splitOnChar (c : Char) : List Char → List (List Char)
  | [] => [[]]
  | a :: rest =>
    let r := splitOnChar c rest
    if a = c then [] :: r
    else
      match r with
      | [] => [[a]]
      | g :: gs => (a :: g) :: gs

/-- Value of a nonempty all-digit character list, else `none`. -/
def digitsToNat (cs : List Char) : Option ℕ :=
  if cs = [] then none
  else if cs.all Char.isDigit then some (cs.foldl (fun a c => 10 * a + (c.toNat - 48)) 0)
  else none

/-- Unsigned part of Python `float(s)`: decimal digits with an optional single
decimal point (at least one digit overall). Exponents, whitespace and
underscores are outside the model's scope; commas are rejected, as in Python. -/
def parseUnsigned (cs : List Char) : Option ℚ :=
  match splitOnChar '.' cs with
  | [a] => (digitsToNat a).map (fun n => (n : ℚ))
  | [a, b] =>
    if a = [] ∧ b = [] then none
    else
      let ia := if a = [] then some 0 else digitsToNat a
      let ib := if b = [] then some 0 else digitsToNat b
      match ia, ib with
      | some n, some f => some ((n : ℚ) + (f : ℚ) / (10 : ℚ) ^ b.length)
      | _, _ => none
  | _ => none

/-- Python `float(s)`, returning `none` where Python raises `ValueError`. -/
def parseFloat (s : String) : Option ℚ :=
  match s.toList with
  | '-' :: rest => (parseUnsigned rest).map (fun q => -q)
  | '+' :: rest => parseUnsigned rest
  | cs => parseUnsigned cs

/-- Python `int(x)` on a float: truncation toward zero. -/
def ratTrunc (q : ℚ) : ℤ :=
  if q < 0 then -(Int.floor (-q)) else Int.floor q

/-- Round to the nearest integer, ties to even (numpy rounding on exact
rationals; float representation artifacts are idealized away). -/
def roundHalfEven (q : ℚ) : ℤ :=
  let f : ℤ := Int.floor q
  let r : ℚ := q - (f : ℚ)
  if r < 1 / 2 then f
  else if 1 / 2 < r then f + 1
  else if 2 ∣ f then f else f + 1

/-- `Series.round(1)`: round to one decimal place. -/
def round1 (q : ℚ) : ℚ :=
  ((roundHalfEven (q * 10) : ℚ)) / 10

/-! ## `clean_dollar_amount` (source lines 21-32)

`none` input models a pandas `NaN`. The result is `.ok none` for a missing
value, `.ok (some x)` for a parsed amount, and `.error ()` when the
underlying `float(...)` call raises an uncaught `ValueError`. -/

def clean_dollar_amount (value : Option String) : Except Unit (Option ℚ) :=
  match value with
  | none => .ok none
  | some s =>
    if s = "" then .ok none
    else
      let v := removeAll '$' s
      if v.toList.contains 'K' then
        match parseFloat (removeAll 'K' v) with
        | some x => .ok (some (x * 1000))
        | none => .error ()
      else
        match parseFloat v with
        | some x => .ok (some x)
        | none => .error ()

/-! ## Decimal digits, ordinal ranks, comma formatting -/

/-- Fuel-driven digit extraction (structural recursion so that the kernel
can evaluate it; the fuel is always sufficient at the call site). -/
def decDigitsAux : ℕ → ℕ → List ℕ
  | 0, _ => []
  | fuel + 1, n => if n < 10 then [n] else decDigitsAux fuel (n / 10) ++ [n % 10]

/-- Big-endian decimal digits of a natural number (the digit characters of
Python `str(n)`). -/
def decDigits (n : ℕ) : List ℕ :=
  decDigitsAux (n + 1) n

/-- Python `str(n)` for a natural number. -/
def pyStrNat (n : ℕ) : String :=
  String.mk ((decDigits n).map Nat.digitChar)

/-- The ordinal-suffix chain of source lines 85-90: string-suffix tests on
`str(rank)`, modelled as suffix tests on the digit list. -/
def ordinalSuffix (n : ℕ) : String :=
  if [1].isSuffixOf (decDigits n) && !([1, 1].isSuffixOf (decDigits n)) then "st"
  else if [2].isSuffixOf (decDigits n) && !([1, 2].isSuffixOf (decDigits n)) then "nd"
  else if [3].isSuffixOf (decDigits n) && !([1, 3].isSuffixOf (decDigits n)) then "rd"
  else "th"

/-- A rank cell as written by the source: `str(rank)` plus its suffix. -/
def ordinalString (n : ℕ) : String :=
  pyStrNat n ++ ordinalSuffix n

/-- The spec-side ordinal rule, modelled from the spec's words: digit 1/2/3
gets st/nd/rd unless the number ends in 11/12/13, otherwise th. -/
def ruleSuffix (n : ℕ) : String :=
  if n % 10 = 1 ∧ n % 100 ≠ 11 then "st"
  else if n % 10 = 2 ∧ n % 100 ≠ 12 then "nd"
  else if n % 10 = 3 ∧ n % 100 ≠ 13 then "rd"
  else "th"

/-- `Series.rank(ascending=False, method='min')` of a present value `v` over
the present values `xs` of the column: one plus the number of strictly
greater values (with multiplicity). -/
def rankDescMin (v : ℚ) (xs : List ℚ) : ℕ :=
  xs.countP (fun x => decide (v < x)) + 1

/-- The same descending min-rank over an object (string) column, as applied
at source line 207 after `census_population` became comma-formatted strings:
pandas compares the strings themselves. -/
def rankStrDescMin (s : String) (col : List String) : ℕ :=
  col.countP (fun t => charListLt s.toList t.toList) + 1

/-- Rank cell construction shared by all four metrics: a missing value's rank
is `NaN`, turned into `0` by `.fillna(0)`, then suffixed; a present value is
min-ranked over the present values of the column. -/
def ordCell (o : Option ℚ) (col : List ℚ) : String :=
  ordinalString (match o with | none => 0 | some v => rankDescMin v col)

/-- Chunks of three (grouping digits from the least significant end). -/
def chunk3 {α : Type} : List α → List (List α)
  | [] => []
  | a :: b :: c :: rest => [a, b, c] :: chunk3 rest
  | l => [l]

/-- Python `f"{n:,}"`: thousands separators every three digits. -/
def commaFormat (n : ℤ) : String :=
  let ds := (decDigits n.natAbs).map Nat.digitChar
  let grouped := ((chunk3 ds.reverse).map List.reverse).reverse
  (if n < 0 then "-" else "") ++ String.intercalate "," (grouped.map String.mk)

/-! ## Display names and blurbs -/

/-- Python `str.title()` on a character list: an alphabetic character is
upper-cased after a non-alphabetic character and lower-cased otherwise. -/
def pyTitleAux : Bool → List Char → List Char
  | _, [] => []
  | prevAlpha, c :: rest =>
    (if c.isAlpha then (if prevAlpha then c.toLower else c.toUpper) else c)
      :: pyTitleAux c.isAlpha rest

/-- `key_row.title().replace('_', ' ')` as used in every blurb. -/
def displayName (k : String) : String :=
  String.mk ((pyTitleAux false k.toList).map (fun c => if c = '_' then ' ' else c))

/-! ## Data model of the four input tables -/

deriving instance DecidableEq for Except

/-- One record of `KEYS.csv` (only the two columns the script reads). -/
structure KeyRecord where
  key_row : String
  alternative_name : Option String
deriving DecidableEq, Inhabited, Repr

/-- A delimited table seen as named columns of cells (`none` = `NaN`). -/
abbrev Table := List (String × List (Option String))

/-- The Redfin table: column names plus rows of cells aligned with them. -/
structure RedfinTable where
  columns : List String
  rows : List (List (Option String))
deriving Inhabited, Repr

/-- Cells of the first column with a given name. -/
def lookupCol (t : Table) (name : String) : Option (List (Option String)) :=
  (t.find? (fun c => c.1 = name)).map (fun c => c.2)

/-- `df.loc[1, name]`: the cell of column `name` at row index 1; `none` when
the column is absent (the call sites guard on column presence) or the cell
is `NaN`. -/
def cellAtRow1 (t : Table) (name : String) : Option String :=
  (((lookupCol t name).map (fun cells => (cells.get? 1).join)).join)

/-- Python dict lookup over insertion-ordered bindings: the last write wins. -/
def lookupLast {β : Type} (l : List (String × β)) (k : String) : Option β :=
  (l.reverse.find? (fun e => e.1 = k)).map (fun e => e.2)

/-- Source line 52: all key records except the nationwide aggregate. -/
def stateKeys (keys : List KeyRecord) : List KeyRecord :=
  keys.filter (fun r => r.key_row ≠ "united_states")

/-! ## Population data (source lines 57-77) -/

/-- Entries contributed to `pop_data` by one key record: the row-1 cell of
column `"{alternative_name}!!Estimate"`, skipped when missing, empty, the
census sentinel `*****`, or unparseable after comma removal. -/
def popEntry (pop : Table) (r : KeyRecord) : List (String × ℚ) :=
  match r.alternative_name with
  | none => []
  | some name =>
    match cellAtRow1 pop (name ++ "!!Estimate") with
    | none => []
    | some v =>
      if v = "" then []
      else if v = "*****" then []
      else
        match parseFloat (removeAll ',' v) with
        | some x => [(r.key_row, x)]
        | none => []

/-- `pop_data` in insertion order. Parse failures are swallowed by the
`try/except/continue`, so this stage never raises. -/
def popData (skeys : List KeyRecord) (pop : Table) : List (String × ℚ) :=
  (skeys.map (popEntry pop)).flatten

/-! ## Median household income data (source lines 96-108) -/

/-- First segment of `col.split('!!')`. -/
def takeBeforeSep : List Char → List Char
  | [] => []
  | '!' :: '!' :: _ => []
  | c :: rest => c :: takeBeforeSep rest

/-- Entries contributed to `mhi_data` by one column. A value whose `float`
conversion fails is retried with commas removed; if that also fails the
exception escapes the `except` block and aborts the run (source line 108). -/
def mhiEntry (skeys : List KeyRecord) (col : String × List (Option String)) :
    Except Unit (List (String × ℚ)) :=
  if "!!Median income (dollars)!!Estimate".toList <:+: col.1.toList then
    let sname := String.mk (takeBeforeSep col.1.toList)
    match skeys.find? (fun r => r.alternative_name = some sname) with
    | none => .ok []
    | some r =>
      match (col.2.get? 1).join with
      | none => .ok []
      | some v =>
        if v = "" then .ok []
        else
          match parseFloat v with
          | some x => .ok [(r.key_row, x)]
          | none =>
            match parseFloat (removeAll ',' v) with
            | some x => .ok [(r.key_row, x)]
            | none => .error ()
  else .ok []

/-- Fold the per-column entries, propagating an uncaught exception. -/
def mhiDataAux (skeys : List KeyRecord) : List (String × List (Option String)) →
    Except Unit (List (String × ℚ))
  | [] => .ok []
  | c :: rest => do
    let e ← mhiEntry skeys c
    let r ← mhiDataAux skeys rest
    pure (e ++ r)

/-- `mhi_data`: the loop over `census_mhi_df.columns[1:]` (the first column
is skipped). -/
def mhiData (skeys : List KeyRecord) (mhi : Table) : Except Unit (List (String × ℚ)) :=
  mhiDataAux skeys (mhi.drop 1)

/-! ## Median sale price data (source lines 129-146) -/

/-- Source line 131: the reporting month is a fixed constant. -/
def latest_month : String := "July 2013"

/-- The cell of a named column in one Redfin row, as a row-indexed `Series`
lookup: `none` when the column is absent (a `KeyError` at the call site for
`Region`, a skipped guard for the month), `some none` for a `NaN` cell. -/
def rowCell (cols : List String) (row : List (Option String)) (name : String) :
    Option (Option String) :=
  (cols.findIdx? (fun c => c = name)).map (fun i => (row.get? i).join)

/-- Entries contributed to `median_sale_price_data` by one Redfin row,
factored through the `Region` and `latest_month` cells only. An absent
`Region` column raises a `KeyError`; an unparseable sale-price string lets
`clean_dollar_amount`'s exception escape (there is no `try` here). -/
def salePriceCore (skeys : List KeyRecord) (regionCell julyCell : Option (Option String)) :
    Except Unit (List (String × ℚ)) :=
  match regionCell with
  | none => .error ()
  | some none => .ok []
  | some (some reg) =>
    match skeys.find? (fun r => r.alternative_name = some reg) with
    | none => .ok []
    | some r =>
      match julyCell with
      | none => .ok []
      | some none => .ok []
      | some (some v) =>
        if v = "" then .ok []
        else
          match clean_dollar_amount (some v) with
          | .error _ => .error ()
          | .ok none => .ok []
          | .ok (some x) => .ok [(r.key_row, x)]

/-- Per-row sale-price processing (source lines 141-146). -/
def salePriceRow (skeys : List KeyRecord) (cols : List String) (row : List (Option String)) :
    Except Unit (List (String × ℚ)) :=
  salePriceCore skeys (rowCell cols row "Region") (rowCell cols row latest_month)

/-- Fold the per-row entries, propagating exceptions. -/
def salePriceAux (skeys : List KeyRecord) (cols : List String) :
    List (List (Option String)) → Except Unit (List (String × ℚ))
  | [] => .ok []
  | row :: rest => do
    let e ← salePriceRow skeys cols row
    let r ← salePriceAux skeys cols rest
    pure (e ++ r)

/-- `median_sale_price_data`: column names are stripped first (line 129). -/
def salePriceData (skeys : List KeyRecord) (t : RedfinTable) :
    Except Unit (List (String × ℚ)) :=
  salePriceAux skeys (t.columns.map pyStrip) t.rows

/-! ## Output assembly (source lines 54-261) -/

/-- `house_affordability_ratio` (lines 167-169): the script divides income by
sale price (not price by income) and rounds to one decimal; missing when
either operand is missing. -/
def ratioOf (mdata sdata : List (String × ℚ)) (k : String) : Option ℚ :=
  match lookupLast mdata k, lookupLast sdata k with
  | some i, some p => some (round1 (i / p))
  | _, _ => none

/-- The `census_population` cell after line 184: comma-formatted, `""` when
missing (unreachable for surviving rows). -/
def popCellOf (pdata : List (String × ℚ)) (k : String) : String :=
  match lookupLast pdata k with
  | some p => commaFormat (ratTrunc p)
  | none => ""

/-- `f"${int(x):,}"` with `""` for a missing value (lines 112-114, 150-152). -/
def moneyCell (o : Option ℚ) : String :=
  match o with
  | some x => "$" ++ commaFormat (ratTrunc x)
  | none => ""

/-- One row of the final output table. `house_affordability_ratio` is kept as
the numeric value written to the CSV (blank when missing). -/
structure OutRow where
  key_row : String
  census_population : String
  population_rank : String
  population_blurb : String
  median_household_income : String
  median_household_income_rank : String
  median_household_income_blurb : String
  median_sale_price_formatted : String
  median_sale_price_rank : String
  median_sale_price_blurb : String
  house_affordability_ratio : Option ℚ
  house_affordability_rank : String
  house_affordability_blurb : String
deriving DecidableEq, Inhabited, Repr

/-- Build one output row. The rank columns reflect the second, overwriting
computations (lines 205-257): the population rank is recomputed over the
comma-formatted string column, the other ranks over the retained numeric
columns. -/
def mkRow (pdata mdata sdata : List (String × ℚ)) (popCells : List String)
    (incomes prices ratios : List ℚ) (r : KeyRecord) : OutRow :=
  { key_row := r.key_row
  , census_population := popCellOf pdata r.key_row
  , population_rank := ordinalString (rankStrDescMin (popCellOf pdata r.key_row) popCells)
  , population_blurb := displayName r.key_row ++ " is " ++
      ordinalString (rankStrDescMin (popCellOf pdata r.key_row) popCells) ++
      " in the nation in population among states, DC, and Puerto Rico."
  , median_household_income := moneyCell (lookupLast mdata r.key_row)
  , median_household_income_rank := ordCell (lookupLast mdata r.key_row) incomes
  , median_household_income_blurb := displayName r.key_row ++ " is " ++
      ordCell (lookupLast mdata r.key_row) incomes
  , median_sale_price_formatted := moneyCell (lookupLast sdata r.key_row)
  , median_sale_price_rank := ordCell (lookupLast sdata r.key_row) prices
  , median_sale_price_blurb := displayName r.key_row ++ " has the " ++
      ordCell (lookupLast sdata r.key_row) prices ++
      " highest median sale price on the list"
  , house_affordability_ratio := ratioOf mdata sdata r.key_row
  , house_affordability_rank := ordCell (ratioOf mdata sdata r.key_row) ratios
  , house_affordability_blurb := displayName r.key_row ++ " is " ++
      ordCell (ratioOf mdata sdata r.key_row) ratios ++ " most affordable" }

/-- Rows of the output: states surviving the population filter (line 81; the
re-filter of line 205 over the string column is a no-op), with ranks taken
over the present values of each column. -/
def buildRows (skeys : List KeyRecord) (pdata mdata sdata : List (String × ℚ)) :
    List OutRow :=
  let kept := skeys.filter (fun r => (lookupLast pdata r.key_row).isSome)
  let popCells := kept.map (fun r => popCellOf pdata r.key_row)
  let incomes := kept.filterMap (fun r => lookupLast mdata r.key_row)
  let prices := kept.filterMap (fun r => lookupLast sdata r.key_row)
  let ratios := kept.filterMap (fun r => ratioOf mdata sdata r.key_row)
  kept.map (mkRow pdata mdata sdata popCells incomes prices ratios)

/-- The states surviving the population filter of line 81. -/
def keptStates (skeys : List KeyRecord) (pdata : List (String × ℚ)) : List KeyRecord :=
  skeys.filter (fun r => (lookupLast pdata r.key_row).isSome)

/-- The whole of `main` up to the written rows. The income stage runs before
the sale-price stage, so its exception fires first, as in the source. -/
def mainPipeline (keys : List KeyRecord) (mhi pop : Table) (redfin : RedfinTable) :
    Except Unit (List OutRow) :=
  Except.bind (mhiData (stateKeys keys) mhi) (fun mdata =>
    Except.bind (salePriceData (stateKeys keys) redfin) (fun sdata =>
      Except.ok (buildRows (stateKeys keys) (popData (stateKeys keys) pop) mdata sdata)))

/-- `final_columns` (source lines 188-202): the header of the written CSV. -/
def final_columns : List String :=
  [ "key_row"
  , "census_population"
  , "population_rank"
  , "population_blurb"
  , "median_household_income"
  , "median_household_income_rank"
  , "median_household_income_blurb"
  , "median_sale_price_formatted"
  , "median_sale_price_rank"
  , "median_sale_price_blurb"
  , "house_affordability_ratio"
  , "house_affordability_rank"
  , "house_affordability_blurb" ]

/-! ## Concrete example inputs for witnesses and counterexamples -/

/-- Two states plus the excluded nationwide aggregate row. -/
def exKeys : List KeyRecord :=
  [ ⟨"alpha", some "Alpha"⟩
  , ⟨"beta", some "Beta"⟩
  , ⟨"united_states", some "United States"⟩ ]

/-- Population table: Alpha 999, Beta 1,000 (row index 1 holds the totals). -/
def exPop : Table :=
  [ ("Alpha!!Estimate", [some "hdr", some "999"])
  , ("Beta!!Estimate", [some "hdr", some "1,000"]) ]

/-- Income table: a leading label column (skipped), then Alpha's income
column with value 60000 at row index 1. Beta has no income column. -/
def exMhi : Table :=
  [ ("Label", [none, none])
  , ("Alpha!!Median income (dollars)!!Estimate", [some "hdr", some "60000"]) ]

/-- Redfin table: a `June 2013` column that must be ignored and the
`July 2013` column actually read (Alpha $300K, Beta $150K). -/
def exRedfin : RedfinTable :=
  { columns := ["Region", "June 2013", "July 2013"]
  , rows :=
      [ [some "Alpha", some "$999K", some "$300K"]
      , [some "Beta", some "$1K", some "$150K"] ] }

/-- The income table with an unparseable income string for Alpha. -/
def exMhiBad : Table :=
  [ ("Label", [none, none])
  , ("Alpha!!Median income (dollars)!!Estimate", [some "hdr", some "abc"]) ]

/-- The Redfin table with different `June 2013` values but identical
`Region` and `July 2013` cells. -/
def exRedfinJune : RedfinTable :=
  { columns := ["Region", "June 2013", "July 2013"]
  , rows :=
      [ [some "Alpha", some "$5K", some "$300K"]
      , [some "Beta", none, some "$150K"] ] }

/-- Populations whose comma-formatted strings sort like the numbers. -/
def exPopSmall : Table :=
  [ ("Alpha!!Estimate", [some "hdr", some "50"])
  , ("Beta!!Estimate", [some "hdr", some "60"]) ]

/-- The rows produced by the pipeline on the base example input. -/
def exRows : List OutRow :=
  match mainPipeline exKeys exMhi exPop exRedfin with
  | .ok rows => rows
  | .error _ => []

/-! ## Digit-suffix characterizations (for the ordinal formatter) -/

/-- The present population values of the surviving states, in row order (the
column over which the numeric population rank would be computed). -/
def popsOf (keys : List KeyRecord) (pop : Table) : List ℚ :=
  (keptStates (stateKeys keys) (popData (stateKeys keys) pop)).filterMap
    (fun r => lookupLast (popData (stateKeys keys) pop) r.key_row)

/-- The rows produced on the small-population example input. -/
def exRowsSmall : List OutRow :=
  match mainPipeline exKeys exMhi exPopSmall exRedfin with
  | .ok rows => rows
  | .error _ => []

theorem decDigitsAux_eq (f1 : ℕ) : ∀ (f2 n : ℕ), n < f1 → n < f2 →
    decDigitsAux f1 n = decDigitsAux f2 n := by
  induction f1 with
  | zero => omega
  | succ f ih =>
    intro f2 n h1 h2
    cases f2 with
    | zero => omega
    | succ g =>
      show (if n < 10 then [n] else decDigitsAux f (n / 10) ++ [n % 10]) =
        (if n < 10 then [n] else decDigitsAux g (n / 10) ++ [n % 10])
      by_cases hn : n < 10
      · rw [if_pos hn, if_pos hn]
      · rw [if_neg hn, if_neg hn, ih g (n / 10) (by omega) (by omega)]

theorem decDigits_small {n : ℕ} (h : n < 10) : decDigits n = [n] := by
  show (if n < 10 then [n] else decDigitsAux n (n / 10) ++ [n % 10]) = [n]
  rw [if_pos h]

theorem decDigits_large {n : ℕ} (h : ¬ n < 10) :
    decDigits n = decDigits (n / 10) ++ [n % 10] := by
  show (if n < 10 then [n] else decDigitsAux n (n / 10) ++ [n % 10]) = _
  rw [if_neg h, decDigitsAux_eq n (n / 10 + 1) (n / 10) (by omega) (by omega)]
  rfl

theorem rev_decDigits (n : ℕ) : (decDigits n).reverse =
    if n < 10 then [n] else n % 10 :: (decDigits (n / 10)).reverse := by
  by_cases h : n < 10
  · rw [decDigits_small h, if_pos h, List.reverse_singleton]
  · rw [decDigits_large h, if_neg h, List.reverse_append, List.reverse_singleton,
      List.singleton_append]

theorem singleton_prefix_iff {α : Type} (a : α) (l : List α) :
    [a] <+: l ↔ l.head? = some a := by
  cases l with
  | nil => simp
  | cons b t => simp [List.cons_prefix_cons, eq_comm]

theorem suffix_single_iff (d n : ℕ) : [d] <:+ decDigits n ↔ n % 10 = d := by
  rw [← List.reverse_prefix, List.reverse_singleton, rev_decDigits]
  by_cases h : n < 10
  · simp [h, singleton_prefix_iff, Nat.mod_eq_of_lt h, eq_comm]
  · simp [h, singleton_prefix_iff, eq_comm]

theorem suffix_pair_iff (d e n : ℕ) :
    [d, e] <:+ decDigits n ↔ 10 ≤ n ∧ (n / 10) % 10 = d ∧ n % 10 = e := by
  rw [← List.reverse_prefix]
  have hrev : ([d, e] : List ℕ).reverse = [e, d] := rfl
  rw [hrev, rev_decDigits]
  by_cases h : n < 10
  · rw [if_pos h]
    constructor
    · intro hp
      have := hp.length_le
      simp at this
    · rintro ⟨h10, -⟩
      omega
  · rw [if_neg h, List.cons_prefix_cons]
    have hd : [d] <+: (decDigits (n / 10)).reverse ↔ (n / 10) % 10 = d := by
      rw [← List.reverse_singleton d, List.reverse_prefix, suffix_single_iff]
    rw [hd]
    constructor
    · rintro ⟨he, hdd⟩
      exact ⟨by omega, hdd, he.symm⟩
    · rintro ⟨-, hdd, he⟩
      exact ⟨he.symm, hdd⟩

theorem suffix_cond_iff (d : ℕ) (n : ℕ) :
    ([d].isSuffixOf (decDigits n) && !([1, d].isSuffixOf (decDigits n))) = true ↔
      (n % 10 = d ∧ n % 100 ≠ 10 + d) := by
  simp only [Bool.and_eq_true, Bool.not_eq_true', ← Bool.not_eq_true,
    List.isSuffixOf_iff_suffix, suffix_single_iff, suffix_pair_iff]
  omega

theorem ordinalSuffix_eq_ruleSuffix (n : ℕ) : ordinalSuffix n = ruleSuffix n := by
  rw [ordinalSuffix, ruleSuffix]
  by_cases c1 : n % 10 = 1 ∧ n % 100 ≠ 11
  · rw [if_pos ((suffix_cond_iff 1 n).2 (by omega)), if_pos c1]
  · rw [if_neg (fun hc => c1 (by have := (suffix_cond_iff 1 n).1 hc; omega)), if_neg c1]
    by_cases c2 : n % 10 = 2 ∧ n % 100 ≠ 12
    · rw [if_pos ((suffix_cond_iff 2 n).2 (by omega)), if_pos c2]
    · rw [if_neg (fun hc => c2 (by have := (suffix_cond_iff 2 n).1 hc; omega)), if_neg c2]
      by_cases c3 : n % 10 = 3 ∧ n % 100 ≠ 13
      · rw [if_pos ((suffix_cond_iff 3 n).2 (by omega)), if_pos c3]
      · rw [if_neg (fun hc => c3 (by have := (suffix_cond_iff 3 n).1 hc; omega)), if_neg c3]

/-! ## Min-rank (competition ranking) properties -/

theorem countP_lt_of_mem {α : Type} {p q : α → Bool} {l : List α}
    (hpq : ∀ x ∈ l, p x = true → q x = true) {b : α} (hb : b ∈ l)
    (hqb : q b = true) (hpb : p b = false) : l.countP p < l.countP q := by
  induction l with
  | nil => cases hb
  | cons a t ih =>
    rw [List.countP_cons, List.countP_cons]
    rcases List.mem_cons.1 hb with rfl | hbt
    · have hle : t.countP p ≤ t.countP q :=
        List.countP_mono_left (fun x hx hp => hpq x (List.mem_cons_of_mem _ hx) hp)
      rw [hpb, hqb]
      simp only [Bool.false_eq_true, if_false, if_true]
      omega
    · have ht := ih (fun x hx hp => hpq x (List.mem_cons_of_mem _ hx) hp) hbt
      have ha : p a = true → q a = true := hpq a (List.mem_cons_self a t)
      by_cases hpa : p a = true
      · rw [if_pos hpa, if_pos (ha hpa)]
        omega
      · rw [if_neg hpa]
        split_ifs <;> omega

theorem rankDescMin_strict (xs : List ℚ) (u v : ℚ) (hv : v ∈ xs) (huv : u < v) :
    rankDescMin v xs < rankDescMin u xs := by
  unfold rankDescMin
  have h := countP_lt_of_mem (p := fun x => decide (v < x)) (q := fun x => decide (u < x))
    (l := xs)
    (fun x _ hpx => by
      simp only [decide_eq_true_eq] at hpx ⊢
      exact lt_trans huv hpx)
    hv
    (by simp only [decide_eq_true_eq]; exact huv)
    (by simp)
  omega

/-! ## Pipeline inversion and row-shape lemmas -/

theorem except_bind_ok {ε α β : Type} (a : α) (f : α → Except ε β) :
    Except.bind (Except.ok a) f = f a := rfl

theorem except_bind_error {ε α β : Type} (e : ε) (f : α → Except ε β) :
    Except.bind (Except.error e : Except ε α) f = Except.error e := rfl

theorem buildRows_eq (skeys : List KeyRecord) (pdata mdata sdata : List (String × ℚ)) :
    buildRows skeys pdata mdata sdata =
      (keptStates skeys pdata).map
        (mkRow pdata mdata sdata
          ((keptStates skeys pdata).map (fun r => popCellOf pdata r.key_row))
          ((keptStates skeys pdata).filterMap (fun r => lookupLast mdata r.key_row))
          ((keptStates skeys pdata).filterMap (fun r => lookupLast sdata r.key_row))
          ((keptStates skeys pdata).filterMap (fun r => ratioOf mdata sdata r.key_row))) := rfl

theorem mainPipeline_ok_iff (keys : List KeyRecord) (mhi pop : Table) (redfin : RedfinTable)
    (rows : List OutRow) :
    mainPipeline keys mhi pop redfin = .ok rows ↔
      ∃ mdata sdata, mhiData (stateKeys keys) mhi = .ok mdata ∧
        salePriceData (stateKeys keys) redfin = .ok sdata ∧
        rows = buildRows (stateKeys keys) (popData (stateKeys keys) pop) mdata sdata := by
  unfold mainPipeline
  cases hm : mhiData (stateKeys keys) mhi with
  | error e =>
    rw [except_bind_error]
    constructor
    · intro h
      exact Except.noConfusion h
    · rintro ⟨mdata, sdata, hm2, -, -⟩
      exact Except.noConfusion hm2
  | ok mdata =>
    rw [except_bind_ok]
    cases hs : salePriceData (stateKeys keys) redfin with
    | error e =>
      rw [except_bind_error]
      constructor
      · intro h
        exact Except.noConfusion h
      · rintro ⟨mdata2, sdata2, hm2, hs2, -⟩
        exact Except.noConfusion hs2
    | ok sdata =>
      rw [except_bind_ok]
      constructor
      · intro h
        injection h with h2
        exact ⟨mdata, sdata, rfl, rfl, h2.symm⟩
      · rintro ⟨mdata2, sdata2, hm2, hs2, hrows⟩
        injection hm2 with hm3
        injection hs2 with hs3
        rw [hrows, hm3, hs3]

theorem mem_kept (skeys : List KeyRecord) (pdata : List (String × ℚ)) (r : KeyRecord) :
    r ∈ keptStates skeys pdata ↔ r ∈ skeys ∧ (lookupLast pdata r.key_row).isSome = true :=
  List.mem_filter

/-! ## Row projection lemmas -/

theorem mkRow_key (pdata mdata sdata : List (String × ℚ)) (pc : List String)
    (inc pr ra : List ℚ) (r : KeyRecord) :
    (mkRow pdata mdata sdata pc inc pr ra r).key_row = r.key_row := rfl

theorem mkRow_pop (pdata mdata sdata : List (String × ℚ)) (pc : List String)
    (inc pr ra : List ℚ) (r : KeyRecord) :
    (mkRow pdata mdata sdata pc inc pr ra r).census_population =
      popCellOf pdata r.key_row := rfl

theorem mkRow_pop_rank (pdata mdata sdata : List (String × ℚ)) (pc : List String)
    (inc pr ra : List ℚ) (r : KeyRecord) :
    (mkRow pdata mdata sdata pc inc pr ra r).population_rank =
      ordinalString (rankStrDescMin (popCellOf pdata r.key_row) pc) := rfl

theorem mkRow_income (pdata mdata sdata : List (String × ℚ)) (pc : List String)
    (inc pr ra : List ℚ) (r : KeyRecord) :
    (mkRow pdata mdata sdata pc inc pr ra r).median_household_income =
      moneyCell (lookupLast mdata r.key_row) := rfl

theorem mkRow_income_rank (pdata mdata sdata : List (String × ℚ)) (pc : List String)
    (inc pr ra : List ℚ) (r : KeyRecord) :
    (mkRow pdata mdata sdata pc inc pr ra r).median_household_income_rank =
      ordCell (lookupLast mdata r.key_row) inc := rfl

theorem mkRow_income_blurb (pdata mdata sdata : List (String × ℚ)) (pc : List String)
    (inc pr ra : List ℚ) (r : KeyRecord) :
    (mkRow pdata mdata sdata pc inc pr ra r).median_household_income_blurb =
      displayName r.key_row ++ " is " ++ ordCell (lookupLast mdata r.key_row) inc := rfl

theorem mkRow_price (pdata mdata sdata : List (String × ℚ)) (pc : List String)
    (inc pr ra : List ℚ) (r : KeyRecord) :
    (mkRow pdata mdata sdata pc inc pr ra r).median_sale_price_formatted =
      moneyCell (lookupLast sdata r.key_row) := rfl

theorem mkRow_price_rank (pdata mdata sdata : List (String × ℚ)) (pc : List String)
    (inc pr ra : List ℚ) (r : KeyRecord) :
    (mkRow pdata mdata sdata pc inc pr ra r).median_sale_price_rank =
      ordCell (lookupLast sdata r.key_row) pr := rfl

theorem mkRow_price_blurb (pdata mdata sdata : List (String × ℚ)) (pc : List String)
    (inc pr ra : List ℚ) (r : KeyRecord) :
    (mkRow pdata mdata sdata pc inc pr ra r).median_sale_price_blurb =
      displayName r.key_row ++ " has the " ++ ordCell (lookupLast sdata r.key_row) pr ++
        " highest median sale price on the list" := rfl

theorem mkRow_ratio (pdata mdata sdata : List (String × ℚ)) (pc : List String)
    (inc pr ra : List ℚ) (r : KeyRecord) :
    (mkRow pdata mdata sdata pc inc pr ra r).house_affordability_ratio =
      ratioOf mdata sdata r.key_row := rfl

theorem mkRow_ratio_rank (pdata mdata sdata : List (String × ℚ)) (pc : List String)
    (inc pr ra : List ℚ) (r : KeyRecord) :
    (mkRow pdata mdata sdata pc inc pr ra r).house_affordability_rank =
      ordCell (ratioOf mdata sdata r.key_row) ra := rfl

theorem mkRow_ratio_blurb (pdata mdata sdata : List (String × ℚ)) (pc : List String)
    (inc pr ra : List ℚ) (r : KeyRecord) :
    (mkRow pdata mdata sdata pc inc pr ra r).house_affordability_blurb =
      displayName r.key_row ++ " is " ++ ordCell (ratioOf mdata sdata r.key_row) ra ++
        " most affordable" := rfl

theorem mem_buildRows (skeys : List KeyRecord) (pdata mdata sdata : List (String × ℚ))
    (row : OutRow) :
    row ∈ buildRows skeys pdata mdata sdata ↔
      ∃ r, r ∈ keptStates skeys pdata ∧
        row = mkRow pdata mdata sdata
          ((keptStates skeys pdata).map (fun x => popCellOf pdata x.key_row))
          ((keptStates skeys pdata).filterMap (fun x => lookupLast mdata x.key_row))
          ((keptStates skeys pdata).filterMap (fun x => lookupLast sdata x.key_row))
          ((keptStates skeys pdata).filterMap (fun x => ratioOf mdata sdata x.key_row)) r := by
  rw [buildRows_eq]
  constructor
  · intro h
    rcases List.mem_map.1 h with ⟨r, hr, he⟩
    exact ⟨r, hr, he.symm⟩
  · rintro ⟨r, hr, he⟩
    exact he ▸ List.mem_map_of_mem _ hr

theorem buildRows_keys (skeys : List KeyRecord) (pdata mdata sdata : List (String × ℚ)) :
    (buildRows skeys pdata mdata sdata).map OutRow.key_row =
      (keptStates skeys pdata).map KeyRecord.key_row := by
  rw [buildRows_eq, List.map_map]
  rfl

theorem map_popCell_eq (pdata : List (String × ℚ)) :
    ∀ l : List KeyRecord, (∀ r ∈ l, (lookupLast pdata r.key_row).isSome = true) →
      l.map (fun r => popCellOf pdata r.key_row) =
        (l.filterMap (fun r => lookupLast pdata r.key_row)).map
          (fun p => commaFormat (ratTrunc p)) := by
  intro l
  induction l with
  | nil => intro _; rfl
  | cons r t ih =>
    intro hall
    rcases Option.isSome_iff_exists.1 (hall r (List.mem_cons_self r t)) with ⟨p, hp⟩
    rw [List.map_cons, List.filterMap_cons, hp, List.map_cons,
      ih (fun x hx => hall x (List.mem_cons_of_mem _ hx))]
    congr 1
    simp [popCellOf, hp]

/-! ## Sale-price stage lemmas -/

theorem salePriceRow_proj (skeys : List KeyRecord) (cols : List String)
    (row row2 : List (Option String))
    (hreg : rowCell cols row "Region" = rowCell cols row2 "Region")
    (hjul : rowCell cols row latest_month = rowCell cols row2 latest_month) :
    salePriceRow skeys cols row = salePriceRow skeys cols row2 := by
  unfold salePriceRow
  rw [hreg, hjul]

theorem salePriceAux_proj (skeys : List KeyRecord) (cols : List String) :
    ∀ rows rows2 : List (List (Option String)),
      rows.map (fun row => (rowCell cols row "Region", rowCell cols row latest_month)) =
        rows2.map (fun row => (rowCell cols row "Region", rowCell cols row latest_month)) →
      salePriceAux skeys cols rows = salePriceAux skeys cols rows2 := by
  intro rows
  induction rows with
  | nil =>
    intro rows2 h
    cases rows2 with
    | nil => rfl
    | cons r2 t2 => simp at h
  | cons r t ih =>
    intro rows2 h
    cases rows2 with
    | nil => simp at h
    | cons r2 t2 =>
      simp only [List.map_cons, List.cons.injEq, Prod.mk.injEq] at h
      obtain ⟨⟨hreg, hjul⟩, htail⟩ := h
      show Except.bind (salePriceRow skeys cols r) _ =
        Except.bind (salePriceRow skeys cols r2) _
      rw [salePriceRow_proj skeys cols r r2 hreg hjul, ih t2 htail]

theorem salePriceRow_mem (skeys : List KeyRecord) (cols : List String)
    (row : List (Option String)) (e : List (String × ℚ))
    (h : salePriceRow skeys cols row = .ok e) :
    ∀ kv ∈ e, ∃ reg w : String, ∃ rec : KeyRecord,
      rowCell cols row "Region" = some (some reg) ∧
      skeys.find? (fun x => x.alternative_name = some reg) = some rec ∧
      rec.key_row = kv.1 ∧
      rowCell cols row latest_month = some (some w) ∧
      clean_dollar_amount (some w) = .ok (some kv.2) := by
  unfold salePriceRow salePriceCore at h
  split at h
  · exact absurd h (by intro hc; exact Except.noConfusion hc)
  · injection h with he
    subst he
    intro kv hkv
    cases hkv
  · rename_i reg hreg
    split at h
    · injection h with he
      subst he
      intro kv hkv
      cases hkv
    · rename_i rec hfind
      split at h
      · injection h with he
        subst he
        intro kv hkv
        cases hkv
      · injection h with he
        subst he
        intro kv hkv
        cases hkv
      · rename_i v hjul
        split at h
        · injection h with he
          subst he
          intro kv hkv
          cases hkv
        · split at h
          · exact absurd h (by intro hc; exact Except.noConfusion hc)
          · injection h with he
            subst he
            intro kv hkv
            cases hkv
          · rename_i x hclean
            injection h with he
            subst he
            intro kv hkv
            rcases List.mem_singleton.1 hkv with rfl
            exact ⟨reg, v, rec, hreg, hfind, rfl, hjul, hclean⟩

theorem salePriceAux_mem (skeys : List KeyRecord) (cols : List String) :
    ∀ (rows : List (List (Option String))) (sdata : List (String × ℚ)),
      salePriceAux skeys cols rows = .ok sdata →
      ∀ kv ∈ sdata, ∃ row ∈ rows, ∃ reg w : String, ∃ rec : KeyRecord,
        rowCell cols row "Region" = some (some reg) ∧
        skeys.find? (fun x => x.alternative_name = some reg) = some rec ∧
        rec.key_row = kv.1 ∧
        rowCell cols row latest_month = some (some w) ∧
        clean_dollar_amount (some w) = .ok (some kv.2) := by
  intro rows
  induction rows with
  | nil =>
    intro sdata h kv hkv
    injection h with he
    subst he
    cases hkv
  | cons r t ih =>
    intro sdata h kv hkv
    rw [show salePriceAux skeys cols (r :: t) =
      Except.bind (salePriceRow skeys cols r) (fun e =>
        Except.bind (salePriceAux skeys cols t) (fun rest => Except.ok (e ++ rest)))
      from rfl] at h
    cases hrow : salePriceRow skeys cols r with
    | error e2 =>
      rw [hrow, except_bind_error] at h
      exact absurd h (by intro hc; exact Except.noConfusion hc)
    | ok e =>
      rw [hrow, except_bind_ok] at h
      cases haux : salePriceAux skeys cols t with
      | error e3 =>
        rw [haux, except_bind_error] at h
        exact absurd h (by intro hc; exact Except.noConfusion hc)
      | ok rest =>
        rw [haux, except_bind_ok] at h
        injection h with he
        subst he
        rcases List.mem_append.1 hkv with hl | hr2
        · rcases salePriceRow_mem skeys cols r e hrow kv hl with
            ⟨reg, w, rec, h1, h2, h3, h4, h5⟩
          exact ⟨r, List.mem_cons_self r t, reg, w, rec, h1, h2, h3, h4, h5⟩
        · rcases ih rest haux kv hr2 with ⟨row, hrowmem, reg, w, rec, h1, h2, h3, h4, h5⟩
          exact ⟨row, List.mem_cons_of_mem _ hrowmem, reg, w, rec, h1, h2, h3, h4, h5⟩

theorem pipeline_isOk_of_stages (keys : List KeyRecord) (mhi pop : Table)
    (redfin : RedfinTable)
    (hm : (mhiData (stateKeys keys) mhi).isOk = true)
    (hs : (salePriceData (stateKeys keys) redfin).isOk = true) :
    (mainPipeline keys mhi pop redfin).isOk = true := by
  unfold mainPipeline
  cases hm2 : mhiData (stateKeys keys) mhi with
  | error e =>
    rw [hm2] at hm
    exact absurd hm (by simp [Except.isOk, Except.toBool])
  | ok mdata =>
    rw [except_bind_ok]
    cases hs2 : salePriceData (stateKeys keys) redfin with
    | error e =>
      rw [hs2] at hs
      exact absurd hs (by simp [Except.isOk, Except.toBool])
    | ok sdata =>
      rw [except_bind_ok]
      rfl

/-! ## Claim C1: affordability ratio -/

/-- C1, counterexample. For the state with median household income 60000 and
median sale price 300000 (from `$300K`), the output's
`house_affordability_ratio` is 0.2 — the script divides income by sale
price — and not the claimed 5.0 (sale price divided by income). -/
theorem ratio_direction_counterexample :
    mhiData (stateKeys exKeys) exMhi = .ok [("alpha", (60000 : ℚ))] ∧
    salePriceData (stateKeys exKeys) exRedfin =
      .ok [("alpha", (300000 : ℚ)), ("beta", (150000 : ℚ))] ∧
    (mainPipeline exKeys exMhi exPop exRedfin).map
      (fun rows => rows.map OutRow.house_affordability_ratio) =
      Except.ok [some (1 / 5 : ℚ), none] ∧
    some (1 / 5 : ℚ) ≠ some (5 : ℚ) :=
  ⟨rfl, rfl, rfl, by decide⟩

/-- C1, amended: for every output row with a present median household income
`i` and a present median sale price `p`, `house_affordability_ratio` equals
the median household income divided by the median sale price, rounded to one
decimal; in particular, for sale price 300000 and income 60000 the ratio is
0.2. (The `p ≠ 0` hypothesis records that the model does not reproduce
float division by zero, which never arises for parsed sale prices.) -/
theorem ratio_is_income_div_price (keys : List KeyRecord) (mhi pop : Table)
    (redfin : RedfinTable) (rows : List OutRow) (mdata sdata : List (String × ℚ))
    (row : OutRow) (i p : ℚ)
    (hm : mhiData (stateKeys keys) mhi = .ok mdata)
    (hs : salePriceData (stateKeys keys) redfin = .ok sdata)
    (h : mainPipeline keys mhi pop redfin = .ok rows)
    (hrow : row ∈ rows)
    (hi : lookupLast mdata row.key_row = some i)
    (hp : lookupLast sdata row.key_row = some p)
    (_hp0 : p ≠ 0) :
    row.house_affordability_ratio = some (round1 (i / p)) := by
  rcases (mainPipeline_ok_iff keys mhi pop redfin rows).1 h with
    ⟨mdata2, sdata2, hm2, hs2, hrows⟩
  rw [hm] at hm2
  injection hm2 with hmeq
  rw [hs] at hs2
  injection hs2 with hseq
  subst hmeq
  subst hseq
  subst hrows
  rcases (mem_buildRows _ _ _ _ row).1 hrow with ⟨r, hr, hre⟩
  subst hre
  rw [mkRow_key] at hi hp
  rw [mkRow_ratio]
  unfold ratioOf
  rw [hi, hp]

/-- Witness for C1's amended theorem at the example input. -/
theorem ratio_is_income_div_price_witness :
    (exRows.getD 0 default).house_affordability_ratio =
      some (round1 ((60000 : ℚ) / 300000)) ∧
    round1 ((60000 : ℚ) / 300000) = 1 / 5 :=
  ⟨ratio_is_income_div_price exKeys exMhi exPop exRedfin exRows
      [("alpha", 60000)] [("alpha", 300000), ("beta", 150000)]
      (exRows.getD 0 default) 60000 300000 rfl rfl rfl (by decide) rfl rfl (by decide),
    by decide⟩

/-! ## Claim C2: rank assignment -/

/-- C2, counterexample. With column values `[10, 10, 5]` the script's
`method='min'` rank of 5 is 3, while the claimed dense rank (count of
distinct higher values plus one) is 2: rank numbers are skipped after a
tie. -/
theorem rank_not_dense_counterexample :
    rankDescMin 5 [10, 10, 5] = 3 ∧
    ((([10, 10, 5] : List ℚ).filter (fun x => decide ((5 : ℚ) < x))).dedup.length + 1 = 2) ∧
    (3 : ℕ) ≠ 2 :=
  ⟨by decide, by decide, by decide⟩

/-- C2, amended: rank assignment over the non-missing values is min
(competition) ranking, tie-aware but not dense: equal values receive equal
rank, strictly larger values receive strictly smaller ranks, and the rank of
a value is one plus the count (with multiplicity, not distinct) of strictly
greater values, so rank numbers are skipped after a tie. -/
theorem rank_min_competition (xs : List ℚ) (a b : ℚ) (ha : a ∈ xs) (hb : b ∈ xs) :
    (rankDescMin a xs = rankDescMin b xs ↔ a = b) ∧
    (a < b → rankDescMin b xs < rankDescMin a xs) ∧
    rankDescMin a xs = xs.countP (fun x => decide (a < x)) + 1 := by
  refine ⟨⟨?_, ?_⟩, ?_, rfl⟩
  · intro hr
    by_contra hne
    rcases lt_or_gt_of_ne hne with hlt | hgt
    · have := rankDescMin_strict xs a b hb hlt
      omega
    · have := rankDescMin_strict xs b a ha hgt
      omega
  · intro he
    rw [he]
  · intro hab
    exact rankDescMin_strict xs a b hb hab

/-- Witness for C2's amended theorem on a concrete column with a tie. -/
theorem rank_min_competition_witness :
    ((rankDescMin 1 [2, 2, 1] = rankDescMin 2 [2, 2, 1] ↔ (1 : ℚ) = 2) ∧
      ((1 : ℚ) < 2 → rankDescMin 2 [2, 2, 1] < rankDescMin 1 [2, 2, 1]) ∧
      rankDescMin 1 [2, 2, 1] =
        ([2, 2, 1] : List ℚ).countP (fun x => decide ((1 : ℚ) < x)) + 1) :=
  rank_min_competition [2, 2, 1] 1 2 (by decide) (by decide)

/-! ## Claim C3: dollar-string parser -/

/-- C3, counterexample. `clean_dollar_amount` never strips commas, so
`"$55,000"` hits `float("55,000")`, which raises: the call errors instead
of returning 55000.0. -/
theorem dollar_comma_counterexample :
    clean_dollar_amount (some "$55,000") = Except.error () ∧
    clean_dollar_amount (some "$55,000") ≠ Except.ok (some (55000 : ℚ)) :=
  ⟨rfl, by decide⟩

/-- C3, amended: the parser maps `"$131K"` to 131000.0 and the empty or
missing input to a missing value; it strips the currency symbol and
multiplies by 1000 under a `"K"` suffix; but `"$55,000"` raises an
uncaught `ValueError` (the comma is not stripped), and a non-empty input is
never mapped to a missing value. -/
theorem dollar_parser_behavior :
    clean_dollar_amount (some "$131K") = Except.ok (some (131000 : ℚ)) ∧
    clean_dollar_amount none = Except.ok none ∧
    clean_dollar_amount (some "") = Except.ok none ∧
    clean_dollar_amount (some "$55,000") = Except.error () ∧
    clean_dollar_amount (some "$1.5K") = Except.ok (some (1500 : ℚ)) ∧
    ∀ s : String, clean_dollar_amount (some s) = Except.ok none ↔ s = "" := by
  refine ⟨rfl, rfl, rfl, rfl, by decide, ?_⟩
  intro s
  constructor
  · intro h
    by_contra hne
    simp only [clean_dollar_amount, if_neg hne] at h
    split at h
    · split at h
      · injection h with he
        exact Option.noConfusion he
      · exact Except.noConfusion h
    · split at h
      · injection h with he
        exact Option.noConfusion he
      · exact Except.noConfusion h
  · rintro rfl
    rfl

/-! ## Claim C4: unparseable values and aborts -/

/-- C4, counterexample. An unparseable income string (`"abc"`) is retried
with commas removed, fails again, and the exception escapes: the whole run
aborts instead of skipping the record. -/
theorem unparseable_aborts_counterexample :
    cellAtRow1 exMhiBad "Alpha!!Median income (dollars)!!Estimate" = some "abc" ∧
    parseFloat "abc" = none ∧
    mainPipeline exKeys exMhiBad exPop exRedfin = Except.error () :=
  ⟨rfl, rfl, rfl⟩

/-- C4, amended: only the income and sale-price stages can abort the run;
unparseable population strings are caught and skipped per-record (the
population table is arbitrary here), and an unparseable income string is
first retried with commas removed. -/
theorem only_income_and_price_stages_abort (keys : List KeyRecord) (mhi pop : Table)
    (redfin : RedfinTable)
    (hm : (mhiData (stateKeys keys) mhi).isOk = true)
    (hs : (salePriceData (stateKeys keys) redfin).isOk = true) :
    (mainPipeline keys mhi pop redfin).isOk = true :=
  pipeline_isOk_of_stages keys mhi pop redfin hm hs

/-- Witness for C4's amended theorem: the population table carries an
unparseable value, yet the run completes. -/
theorem only_income_and_price_stages_abort_witness :
    (mhiData (stateKeys exKeys) exMhi).isOk = true ∧
    (salePriceData (stateKeys exKeys) exRedfin).isOk = true ∧
    (mainPipeline exKeys exMhi
      [("Alpha!!Estimate", [some "hdr", some "not-a-number"])] exRedfin).isOk = true :=
  ⟨rfl, rfl,
    only_income_and_price_stages_abort exKeys exMhi
      [("Alpha!!Estimate", [some "hdr", some "not-a-number"])] exRedfin rfl rfl⟩

/-! ## Claim C5: states lacking a metric -/

/-- C5, counterexample. The state `beta` has no joinable income: its income
value cell is blank as claimed, but its income rank cell is the sentinel
`"0th"` (from `fillna(0)`), not blank, and its blurb embeds that `"0th"`. -/
theorem missing_metric_not_blank_counterexample :
    (mainPipeline exKeys exMhi exPop exRedfin).map
      (fun rows => rows.map OutRow.median_household_income) =
      Except.ok ["$60,000", ""] ∧
    (mainPipeline exKeys exMhi exPop exRedfin).map
      (fun rows => rows.map OutRow.median_household_income_rank) =
      Except.ok ["1st", "0th"] ∧
    (mainPipeline exKeys exMhi exPop exRedfin).map
      (fun rows => rows.map OutRow.median_household_income_blurb) =
      Except.ok ["Alpha is 1st", "Beta is 0th"] ∧
    ("0th" : String) ≠ "" ∧ ("Beta is 0th" : String) ≠ "" :=
  ⟨rfl, rfl, rfl, by decide, by decide⟩

/-- C5, amended: a state lacking a joinable value for a non-population metric
is still included (inclusion is decided only by the population filter), its
value cell is blank, but its rank cell is the sentinel `"0th"` and its blurb
embeds `"0th"`; a missing sale price also blanks the affordability ratio and
gives it the `"0th"` rank. -/
theorem missing_metric_cells (keys : List KeyRecord) (mhi pop : Table)
    (redfin : RedfinTable) (rows : List OutRow) (mdata sdata : List (String × ℚ))
    (hm : mhiData (stateKeys keys) mhi = .ok mdata)
    (hs : salePriceData (stateKeys keys) redfin = .ok sdata)
    (h : mainPipeline keys mhi pop redfin = .ok rows) :
    rows.map OutRow.key_row =
      (keptStates (stateKeys keys) (popData (stateKeys keys) pop)).map
        KeyRecord.key_row ∧
    ∀ row ∈ rows,
      (lookupLast mdata row.key_row = none →
        row.median_household_income = "" ∧
        row.median_household_income_rank = "0th" ∧
        row.median_household_income_blurb = displayName row.key_row ++ " is " ++ "0th") ∧
      (lookupLast sdata row.key_row = none →
        row.median_sale_price_formatted = "" ∧
        row.median_sale_price_rank = "0th" ∧
        row.median_sale_price_blurb = displayName row.key_row ++ " has the " ++ "0th" ++
          " highest median sale price on the list" ∧
        row.house_affordability_ratio = none ∧
        row.house_affordability_rank = "0th" ∧
        row.house_affordability_blurb = displayName row.key_row ++ " is " ++ "0th" ++
          " most affordable") := by
  rcases (mainPipeline_ok_iff keys mhi pop redfin rows).1 h with
    ⟨mdata2, sdata2, hm2, hs2, hrows⟩
  rw [hm] at hm2
  injection hm2 with hmeq
  rw [hs] at hs2
  injection hs2 with hseq
  subst hmeq
  subst hseq
  subst hrows
  refine ⟨buildRows_keys _ _ _ _, ?_⟩
  intro row hrow
  rcases (mem_buildRows _ _ _ _ row).1 hrow with ⟨r, hr, hre⟩
  subst hre
  constructor
  · intro hnone
    rw [mkRow_key] at hnone
    refine ⟨?_, ?_, ?_⟩
    · rw [mkRow_income, hnone]
      rfl
    · rw [mkRow_income_rank, hnone]
      rfl
    · rw [mkRow_income_blurb, mkRow_key, hnone]
      rfl
  · intro hnone
    rw [mkRow_key] at hnone
    have hrat : ratioOf mdata sdata r.key_row = none := by
      unfold ratioOf
      rw [hnone]
      cases lookupLast mdata r.key_row <;> rfl
    refine ⟨?_, ?_, ?_, ?_, ?_, ?_⟩
    · rw [mkRow_price, hnone]
      rfl
    · rw [mkRow_price_rank, hnone]
      rfl
    · rw [mkRow_price_blurb, mkRow_key, hnone]
      rfl
    · rw [mkRow_ratio, hrat]
    · rw [mkRow_ratio_rank, hrat]
      rfl
    · rw [mkRow_ratio_blurb, mkRow_key, hrat]
      rfl

/-- Witness for C5's amended theorem at the example input, instantiated at
the `beta` row (missing income). -/
theorem missing_metric_cells_witness :
    exRows.map OutRow.key_row =
      (keptStates (stateKeys exKeys) (popData (stateKeys exKeys) exPop)).map
        KeyRecord.key_row ∧
    (lookupLast [("alpha", (60000 : ℚ))] (exRows.getD 1 default).key_row = none →
      (exRows.getD 1 default).median_household_income = "" ∧
      (exRows.getD 1 default).median_household_income_rank = "0th" ∧
      (exRows.getD 1 default).median_household_income_blurb =
        displayName (exRows.getD 1 default).key_row ++ " is " ++ "0th") := by
  have h := missing_metric_cells exKeys exMhi exPop exRedfin exRows
    [("alpha", 60000)] [("alpha", 300000), ("beta", 150000)] rfl rfl rfl
  exact ⟨h.1, (h.2 (exRows.getD 1 default) (by decide)).1⟩

/-! ## Claim C6: output column set -/

/-- C6, counterexample. The written header does not contain a column named
`median_sale_price`: the eighth column is `median_sale_price_formatted`. -/
theorem output_columns_counterexample :
    final_columns ≠
      ["key_row", "census_population", "population_rank", "population_blurb",
       "median_household_income", "median_household_income_rank",
       "median_household_income_blurb", "median_sale_price", "median_sale_price_rank",
       "median_sale_price_blurb", "house_affordability_ratio",
       "house_affordability_rank", "house_affordability_blurb"] := by decide

/-- C6, amended: the output table has exactly the claimed columns in the
claimed order except that the sale-price value column is named
`median_sale_price_formatted` rather than `median_sale_price`. -/
theorem output_columns_exact :
    final_columns =
      ["key_row", "census_population", "population_rank", "population_blurb",
       "median_household_income", "median_household_income_rank",
       "median_household_income_blurb", "median_sale_price_formatted",
       "median_sale_price_rank", "median_sale_price_blurb",
       "house_affordability_ratio", "house_affordability_rank",
       "house_affordability_blurb"] := rfl

/-! ## Claim C7: population invariant -/

/-- C7: every output row's `key_row` is present in the key table, rows are
exactly the states whose population survived the filter (missing, sentinel
`*****`, and unparseable values are dropped by `popData`), and the
population cell is the comma-formatted numeric value. -/
theorem output_population_invariant (keys : List KeyRecord) (mhi pop : Table)
    (redfin : RedfinTable) (rows : List OutRow)
    (h : mainPipeline keys mhi pop redfin = .ok rows) :
    rows.map OutRow.key_row =
      (keptStates (stateKeys keys) (popData (stateKeys keys) pop)).map
        KeyRecord.key_row ∧
    ∀ row ∈ rows, row.key_row ∈ keys.map KeyRecord.key_row ∧
      ∃ p : ℚ, lookupLast (popData (stateKeys keys) pop) row.key_row = some p ∧
        row.census_population = commaFormat (ratTrunc p) := by
  rcases (mainPipeline_ok_iff keys mhi pop redfin rows).1 h with
    ⟨mdata, sdata, -, -, hrows⟩
  subst hrows
  refine ⟨buildRows_keys _ _ _ _, ?_⟩
  intro row hrow
  rcases (mem_buildRows _ _ _ _ row).1 hrow with ⟨r, hr, hre⟩
  subst hre
  have hk := (mem_kept _ _ r).1 hr
  rcases Option.isSome_iff_exists.1 hk.2 with ⟨p, hp⟩
  constructor
  · rw [mkRow_key]
    exact List.mem_map_of_mem _ (List.mem_of_mem_filter hk.1)
  · refine ⟨p, ?_, ?_⟩
    · rw [mkRow_key]
      exact hp
    · rw [mkRow_pop]
      simp [popCellOf, hp]

/-- Witness for C7 at the example input. -/
theorem output_population_invariant_witness :
    exRows.map OutRow.key_row =
      (keptStates (stateKeys exKeys) (popData (stateKeys exKeys) exPop)).map
        KeyRecord.key_row ∧
    ((exRows.getD 0 default).key_row ∈ exKeys.map KeyRecord.key_row ∧
      ∃ p : ℚ, lookupLast (popData (stateKeys exKeys) exPop)
          (exRows.getD 0 default).key_row = some p ∧
        (exRows.getD 0 default).census_population = commaFormat (ratTrunc p)) := by
  have h := output_population_invariant exKeys exMhi exPop exRedfin exRows rfl
  exact ⟨h.1, h.2 (exRows.getD 0 default) (by decide)⟩

/-! ## Claim C8: ordinal-suffix formatter -/

/-- C8: the string-suffix chain of the source agrees with the standard
English ordinal rule (digit 1/2/3 gets st/nd/rd unless the number ends in
11/12/13, otherwise th) for every positive rank; in particular 1 ↦ "1st",
2 ↦ "2nd", 3 ↦ "3rd", 4 ↦ "4th", 11 ↦ "11th", 21 ↦ "21st". -/
theorem ordinal_formatter_standard :
    (∀ n : ℕ, 1 ≤ n → ordinalSuffix n = ruleSuffix n) ∧
    ordinalString 1 = "1st" ∧ ordinalString 2 = "2nd" ∧ ordinalString 3 = "3rd" ∧
    ordinalString 4 = "4th" ∧ ordinalString 11 = "11th" ∧ ordinalString 21 = "21st" :=
  ⟨fun n _ => ordinalSuffix_eq_ruleSuffix n, by decide, by decide, by decide,
    by decide, by decide, by decide⟩

/-- Witness for C8 at the concrete rank 101. -/
theorem ordinal_formatter_standard_witness :
    1 ≤ 101 ∧ ordinalSuffix 101 = ruleSuffix 101 :=
  ⟨by decide, ordinal_formatter_standard.1 101 (by decide)⟩

/-! ## Claim C9: the duplicated population-rank computations -/

/-- C9, counterexample. With populations 999 (`alpha`) and 1000 (`beta`),
the final `population_rank` — recomputed at source line 207 over the
comma-formatted strings — gives `alpha` rank `"1st"` (lexicographically
`"999" > "1,000"`), while the numeric rank of 999 is 2 (`"2nd"`): the two
computations are not equivalent and the final output does not reflect
descending numeric population order. -/
theorem population_rank_rerank_counterexample :
    (mainPipeline exKeys exMhi exPop exRedfin).map
      (fun rows => rows.map OutRow.census_population) = Except.ok ["999", "1,000"] ∧
    (mainPipeline exKeys exMhi exPop exRedfin).map
      (fun rows => rows.map OutRow.population_rank) = Except.ok ["1st", "2nd"] ∧
    ordinalString (rankDescMin 999 [999, 1000]) = "2nd" ∧
    ordinalString (rankDescMin 1000 [999, 1000]) = "1st" ∧
    ("1st" : String) ≠ "2nd" :=
  ⟨rfl, rfl, by decide, by decide, by decide⟩

/-- C9, amended: the final `population_rank` is the descending min-rank of
the comma-formatted population strings under lexicographic comparison; it
coincides with the numeric rank exactly on inputs where the string order
agrees with the numeric order on the surviving population values. -/
theorem population_rank_agree_when_string_order_matches (keys : List KeyRecord)
    (mhi pop : Table) (redfin : RedfinTable) (rows : List OutRow)
    (h : mainPipeline keys mhi pop redfin = .ok rows)
    (hord : ∀ a ∈ popsOf keys pop, ∀ b ∈ popsOf keys pop,
      (charListLt (commaFormat (ratTrunc a)).toList
          (commaFormat (ratTrunc b)).toList = true ↔ a < b)) :
    ∀ row ∈ rows, ∀ p : ℚ,
      lookupLast (popData (stateKeys keys) pop) row.key_row = some p →
      row.population_rank = ordinalString (rankDescMin p (popsOf keys pop)) := by
  rcases (mainPipeline_ok_iff keys mhi pop redfin rows).1 h with
    ⟨mdata, sdata, -, -, hrows⟩
  subst hrows
  intro row hrow p hp
  rcases (mem_buildRows _ _ _ _ row).1 hrow with ⟨r, hr, hre⟩
  subst hre
  rw [mkRow_key] at hp
  rw [mkRow_pop_rank]
  have hcells : (keptStates (stateKeys keys) (popData (stateKeys keys) pop)).map
      (fun x => popCellOf (popData (stateKeys keys) pop) x.key_row) =
      (popsOf keys pop).map (fun q => commaFormat (ratTrunc q)) :=
    map_popCell_eq _ _ (fun x hx => ((mem_kept _ _ x).1 hx).2)
  rw [hcells]
  have hpc : popCellOf (popData (stateKeys keys) pop) r.key_row =
      commaFormat (ratTrunc p) := by
    simp [popCellOf, hp]
  rw [hpc]
  have hpm : p ∈ popsOf keys pop := List.mem_filterMap.2 ⟨r, hr, hp⟩
  have hrank : rankStrDescMin (commaFormat (ratTrunc p))
      ((popsOf keys pop).map (fun q => commaFormat (ratTrunc q))) =
      rankDescMin p (popsOf keys pop) := by
    unfold rankStrDescMin rankDescMin
    rw [List.countP_map]
    have := List.countP_congr (l := popsOf keys pop)
      (p := (fun t => charListLt (commaFormat (ratTrunc p)).toList t.toList) ∘
        (fun q => commaFormat (ratTrunc q)))
      (q := fun x => decide (p < x))
      (fun q hq => by
        simp only [Function.comp_apply, decide_eq_true_eq]
        exact hord p hpm q hq)
    rw [this]
  rw [hrank]

/-- Witness for C9's amended theorem: with populations 50 and 60 the string
order agrees with the numeric order, and the `alpha` row's final rank equals
its numeric rank. -/
theorem population_rank_agree_witness :
    (exRowsSmall.getD 0 default).population_rank =
      ordinalString (rankDescMin 50 (popsOf exKeys exPopSmall)) := by
  have h := population_rank_agree_when_string_order_matches exKeys exMhi exPopSmall
    exRedfin exRowsSmall rfl (by decide)
  exact h (exRowsSmall.getD 0 default) (by decide) 50 rfl

/-! ## Claim C10: the fixed reporting month -/

/-- C10: the reporting month is the constant `"July 2013"`; the sale-price
data depends only on each row's `Region` and `July 2013` cells (tables equal
on those projections give equal results), and every sale-price entry is
parsed by `clean_dollar_amount` from some row's `July 2013` cell whose
region matched a state, so a state absent from that column gets no entry. -/
theorem sale_price_fixed_month :
    latest_month = "July 2013" ∧
    (∀ (skeys : List KeyRecord) (t t2 : RedfinTable),
      t.columns = t2.columns →
      t.rows.map (fun row => (rowCell (t.columns.map pyStrip) row "Region",
          rowCell (t.columns.map pyStrip) row latest_month)) =
        t2.rows.map (fun row => (rowCell (t.columns.map pyStrip) row "Region",
          rowCell (t.columns.map pyStrip) row latest_month)) →
      salePriceData skeys t = salePriceData skeys t2) ∧
    (∀ (skeys : List KeyRecord) (t : RedfinTable) (sdata : List (String × ℚ)),
      salePriceData skeys t = .ok sdata →
      ∀ kv ∈ sdata, ∃ row ∈ t.rows, ∃ reg w : String, ∃ rec : KeyRecord,
        rowCell (t.columns.map pyStrip) row "Region" = some (some reg) ∧
        skeys.find? (fun x => x.alternative_name = some reg) = some rec ∧
        rec.key_row = kv.1 ∧
        rowCell (t.columns.map pyStrip) row latest_month = some (some w) ∧
        clean_dollar_amount (some w) = .ok (some kv.2)) := by
  refine ⟨rfl, ?_, ?_⟩
  · intro skeys t t2 hcols hproj
    unfold salePriceData
    rw [← hcols]
    exact salePriceAux_proj skeys (t.columns.map pyStrip) t.rows t2.rows hproj
  · intro skeys t sdata h kv hkv
    exact salePriceAux_mem skeys (t.columns.map pyStrip) t.rows sdata h kv hkv

/-- Witness for C10: changing only the `June 2013` cells leaves the
sale-price data unchanged. -/
theorem sale_price_fixed_month_witness :
    exRedfin.columns = exRedfinJune.columns ∧
    salePriceData (stateKeys exKeys) exRedfin =
      salePriceData (stateKeys exKeys) exRedfinJune :=
  ⟨rfl, sale_price_fixed_month.2.1 (stateKeys exKeys) exRedfin exRedfinJune rfl (by decide)⟩

end States
